import Mathlib

/-!
# Kubernetes-Resource-API: resource accounting engine, shallow embedding

This file embeds the resource accounting engine of `main.go`:

* `getNodeInfo` (the resource extractor) — populates a node map with each
  node's name, taints, capacity and allocatable resources, resolving the
  vendor-qualified GPU resource name;
* `getNodeFreeResources` (the free-capacity aggregator) — initializes each
  node's free resources from a copy of its allocatable resources, then
  subtracts the reconciled requests of every non-terminated pod bound to a
  node of the map.

Modelling choices:

* `resource.Quantity` is an arbitrary-precision decimal supporting exact
  addition, subtraction, zero test and ordering; all quantities in this
  repository are produced at milli resolution, so it is embedded as `Int`
  measured in milli-units (1 core = 1000, 1 byte-unit = 1000, 1 GPU = 1000).
* Go maps (`v1.ResourceList`, `map[string]*Node`) are embedded as
  association lists; Go's lookup of a missing key returning the zero
  `Quantity` becomes a lookup with default `0`.  Range-loop enumeration
  order becomes the list order; claims about order independence quantify
  over that order.
* In-place mutation of the `map[string]*Node` through pointers becomes
  explicit state passing: each function returns the updated map together
  with its `error` result (`Except String Unit`).
* The Go zero-value of the `Free` field (before the aggregator has written
  it) is embedded as `none`; a written `Free` is `some r`.  A write to a
  still-unset `Free` reads the Go zero value `⟨0, 0, 0, 0⟩`.
-/

/-- Resource keys are the qualified resource names of Kubernetes
(`"cpu"`, `"memory"`, `"ephemeral-storage"`, `"nvidia.com/gpu"`, …). -/
abbrev ResourceName := String

/-- `v1.ResourceList`: a Go map from qualified resource name to quantity,
embedded as an association list in enumeration order. -/
abbrev ResourceList := List (ResourceName × Int)

/-- Go map lookup `rl[k]`: a missing key yields the zero quantity. -/
def rlGet (rl : ResourceList) (k : ResourceName) : Int :=
  match rl.find? (fun p => p.1 == k) with
  | some p => p.2
  | none => 0

/-- `corev1.Taint`: opaque key/value/effect triple, never interpreted. -/
structure Taint where
  Key : String
  Value : String
  Effect : String
deriving DecidableEq, Repr

/-- The `Resources` struct of `main.go`: the four tracked quantities. -/
structure Resources where
  Cpu : Int
  Memory : Int
  Gpu : Int
  Ephemeral : Int
deriving DecidableEq, Repr

/-- The `Node` struct of `main.go`.  `Free` is `none` while it still holds
its Go zero value (the extractor leaves it unset); the aggregator writes
`some`. -/
structure Node where
  Name : String
  Taints : List Taint
  Allocatable : Resources
  Capacity : Resources
  Free : Option Resources
deriving DecidableEq, Repr

/-- The `map[string]*Node` threaded between the two passes, as an
association list. -/
abbrev NodeMap := List (String × Node)

/-- Go map membership test `_, ok := nodes[k]`. -/
def nmContains (nodes : NodeMap) (k : String) : Bool :=
  nodes.any (fun p => p.1 == k)

/-- Go map read `nodes[k]` (as an option; used only under a membership
guard in the source). -/
def nmGet (nodes : NodeMap) (k : String) : Option Node :=
  (nodes.find? (fun p => p.1 == k)).map (fun p => p.2)

/-- Go map write `nodes[k] = v`: overwrite an existing binding, else
append a new one. -/
def nmInsert (nodes : NodeMap) (k : String) (v : Node) : NodeMap :=
  if nmContains nodes k then
    nodes.map (fun p => if p.1 == k then (k, v) else p)
  else
    nodes ++ [(k, v)]

/-- Mutation through the stored pointer: update the node bound to `k`,
leave every other binding alone (no binding is created). -/
def nmModify (nodes : NodeMap) (k : String) (f : Node → Node) : NodeMap :=
  nodes.map (fun p => if p.1 == k then (p.1, f p.2) else p)

/-- `corev1.Node`, restricted to the fields the engine reads: name, spec
taints, and the status capacity/allocatable resource lists. -/
structure KNode where
  name : String
  taints : List Taint
  capacity : ResourceList
  allocatable : ResourceList
deriving DecidableEq, Repr

/-- `corev1.PodPhase`. -/
inductive PodPhase where
  | pending
  | running
  | succeeded
  | failed
  | unknown
deriving DecidableEq, Repr

/-- A container, restricted to its resource requests and limits. -/
structure Container where
  requests : ResourceList
  limits : ResourceList
deriving DecidableEq, Repr

/-- `corev1.Pod`, restricted to the fields the engine reads: the bound
node name, the lifecycle phase, the (init) containers' resource
requirements and the pod overhead. -/
structure Pod where
  name : String
  nodeName : String
  phase : PodPhase
  containers : List Container
  initContainers : List Container
  overhead : ResourceList
deriving DecidableEq, Repr

/-- Go's `strings.HasPrefix`, stated on the character lists of the two
strings so that it computes by kernel reduction. -/
def hasPre (s pre : String) : Bool := pre.data.isPrefixOf s.data

/-- GPU resolution of `main.go` (lines 202–210 on a node's capacity list,
lines 271–279 on a pod's reconciled request list): start from the exact
`"nvidia.com/gpu"` entry (zero when absent), then scan every entry and let
any `nvidia.com`-prefixed key with a nonzero value override the current
value. -/
def resolveGpu (rl : ResourceList) : Int :=
  rl.foldl
    (fun acc p =>
      if hasPre p.1 "nvidia.com" && p.2 != 0 then p.2 else acc)
    (rlGet rl "nvidia.com/gpu")

/-- `addResourceList` of `k8s.io/kubectl/pkg/util/resource`: add each
entry of `new` into `list`, inserting keys not yet present. -/
def addResourceList (list new : ResourceList) : ResourceList :=
  new.foldl
    (fun acc p =>
      if acc.any (fun q => q.1 == p.1) then
        acc.map (fun q => if q.1 == p.1 then (q.1, q.2 + p.2) else q)
      else
        acc ++ [p])
    list

/-- `maxResourceList` of `k8s.io/kubectl/pkg/util/resource`: raise each
entry of `list` to the value in `new` when the latter is larger, inserting
keys not yet present. -/
def maxResourceList (list new : ResourceList) : ResourceList :=
  new.foldl
    (fun acc p =>
      if acc.any (fun q => q.1 == p.1) then
        acc.map (fun q => if q.1 == p.1 && q.2 < p.2 then (q.1, p.2) else q)
      else
        acc ++ [p])
    list

/-- The requests half of `resourcehelper.PodRequestsAndLimits`
(`k8s.io/kubectl/pkg/util/resource`): sum the requests of all regular
containers, take the pointwise maximum with each init container's
requests, then add the pod overhead. -/
def podRequests (pod : Pod) : ResourceList :=
  let reqs := pod.containers.foldl (fun acc c => addResourceList acc c.requests) []
  let reqs := pod.initContainers.foldl (fun acc c => maxResourceList acc c.requests) reqs
  addResourceList reqs pod.overhead

/-- The `Node` record built by the node loop of `getNodeInfo`
(lines 200–228).  The GPU quantity is resolved once from the capacity list
and used for both the capacity and the allocatable record. -/
def extractedNode (kn : KNode) : Node :=
  let gpuCapacity := resolveGpu kn.capacity
  { Name := kn.name
    Taints := kn.taints
    Capacity :=
      { Cpu := rlGet kn.capacity "cpu"
        Memory := rlGet kn.capacity "memory"
        Gpu := gpuCapacity
        Ephemeral := rlGet kn.capacity "ephemeral-storage" }
    Allocatable :=
      { Cpu := rlGet kn.allocatable "cpu"
        Memory := rlGet kn.allocatable "memory"
        Gpu := gpuCapacity
        Ephemeral := rlGet kn.allocatable "ephemeral-storage" }
    Free := none }

/-- The body of the node loop of `getNodeInfo` (lines 200–231): build the
`Node` record for one cluster node and insert it under its name. -/
def extractNode (nodes : NodeMap) (kn : KNode) : NodeMap :=
  nmInsert nodes kn.name (extractedNode kn)

/-- `getNodeInfo` (lines 191–234): on a successful node-list fetch, add an
entry to the map for every cluster node; on a fetch failure return the
error with the map untouched. -/
def getNodeInfo (nodeListResult : Except String (List KNode)) (nodes : NodeMap) :
    Except String Unit × NodeMap :=
  match nodeListResult with
  | .error e => (.error e, nodes)
  | .ok items => (.ok (), items.foldl extractNode nodes)

/-- The initialization loop of `getNodeFreeResources` (lines 248–255):
copy each node's allocatable resources into its free resources. -/
def initFree (nodes : NodeMap) : NodeMap :=
  nodes.map (fun p =>
    let a := p.2.Allocatable
    let freeCopy : Resources :=
      { Cpu := a.Cpu, Memory := a.Memory, Gpu := a.Gpu, Ephemeral := a.Ephemeral }
    (p.1, { p.2 with Free := some freeCopy }))

/-- The Go zero value of `Resources`, read when subtracting from a `Free`
field that was never written. -/
def zeroResources : Resources :=
  { Cpu := 0, Memory := 0, Gpu := 0, Ephemeral := 0 }

/-- The body of the pod loop of `getNodeFreeResources` (lines 257–287):
skip the pod when its node is not in the map; otherwise subtract its
reconciled CPU, memory, GPU and ephemeral requests from the node's free
resources. -/
def subtractPod (nodes : NodeMap) (pod : Pod) : NodeMap :=
  if nmContains nodes pod.nodeName then
    let podReqs := podRequests pod
    let cpuReq := rlGet podReqs "cpu"
    let memReq := rlGet podReqs "memory"
    let gpuReq := resolveGpu podReqs
    let ephemeralReq := rlGet podReqs "ephemeral-storage"
    nmModify nodes pod.nodeName (fun nd =>
      let f := nd.Free.getD zeroResources
      let sub : Resources :=
        { Cpu := f.Cpu - cpuReq, Memory := f.Memory - memReq
          Gpu := f.Gpu - gpuReq, Ephemeral := f.Ephemeral - ephemeralReq }
      { nd with Free := some sub })
  else nodes

/-- `getNodeFreeResources` (lines 239–290): on a successful fetch of the
non-terminated pod list, initialize every node's free resources from its
allocatable resources and subtract each pod's requests; on a fetch failure
return the error with the map untouched. -/
def getNodeFreeResources (podListResult : Except String (List Pod)) (nodes : NodeMap) :
    Except String Unit × NodeMap :=
  match podListResult with
  | .error e => (.error e, nodes)
  | .ok items => (.ok (), items.foldl subtractPod (initFree nodes))

/-- The field selector of the pod-list query (line 241):
`status.phase!=Succeeded,status.phase!=Failed` — the server returns only
pods whose phase is neither succeeded nor failed. -/
def listNonTerminatedPods (clusterPods : List Pod) : List Pod :=
  clusterPods.filter (fun p =>
    !(p.phase == PodPhase.succeeded) && !(p.phase == PodPhase.failed))

/-- The aggregator applied to a cluster pod set through the phase-filtered
list query, as the handler does. -/
def getNodeFreeResourcesCluster (clusterPods : List Pod) (nodes : NodeMap) :
    Except String Unit × NodeMap :=
  getNodeFreeResources (.ok (listNonTerminatedPods clusterPods)) nodes

/-! ## Concrete fixtures

The two-node scenario of `TestGetNodeFreeResources` (`main_test.go`,
lines 273–405), in milli-units: node-1 ("node-A") carries no workloads;
node-2 ("node-B") has allocatable {12 CPU, 12 mem, 2 GPU, 28000m
ephemeral} and carries two pods requesting {4 CPU, 2 mem, 1 GPU, 4000m
ephemeral} and {3 CPU, 5 mem, 8500m ephemeral}. -/

/-- node-1 of the test fixture ("node-A": no workloads, no GPU). -/
def nodeA : KNode :=
  { name := "node-1", taints := []
    capacity := [("cpu", 24000), ("memory", 5000), ("ephemeral-storage", 32000)]
    allocatable := [("cpu", 20000), ("memory", 4000), ("ephemeral-storage", 28000)] }

/-- node-2 of the test fixture ("node-B": the GPU node). -/
def nodeB : KNode :=
  { name := "node-2", taints := []
    capacity :=
      [("cpu", 16000), ("memory", 16000), ("nvidia.com/gpu", 2000), ("ephemeral-storage", 32000)]
    allocatable :=
      [("cpu", 12000), ("memory", 12000), ("nvidia.com/gpu", 2000), ("ephemeral-storage", 28000)] }

/-- pod-1 of the test fixture: bound to node-2, requesting
{4 CPU, 2 mem, 1 GPU, 4000m ephemeral}. -/
def podB1 : Pod :=
  { name := "pod-1", nodeName := "node-2", phase := .running
    containers :=
      [{ requests :=
           [("cpu", 4000), ("memory", 2000), ("ephemeral-storage", 4000), ("nvidia.com/gpu", 1000)]
         limits := [] }]
    initContainers := [], overhead := [] }

/-- pod-2 of the test fixture: bound to node-2, requesting
{3 CPU, 5 mem, 8500m ephemeral}. -/
def podB2 : Pod :=
  { name := "pod-2", nodeName := "node-2", phase := .running
    containers :=
      [{ requests := [("cpu", 3000), ("memory", 5000), ("ephemeral-storage", 8500)]
         limits := [] }]
    initContainers := [], overhead := [] }

/-- The map entry the extractor produces for `nodeB`. -/
def nodeBEntry : String × Node :=
  ("node-2",
    { Name := "node-2", Taints := []
      Allocatable := { Cpu := 12000, Memory := 12000, Gpu := 2000, Ephemeral := 28000 }
      Capacity := { Cpu := 16000, Memory := 16000, Gpu := 2000, Ephemeral := 32000 }
      Free := none })

/-- The map entry the extractor produces for `nodeA`. -/
def nodeAEntry : String × Node :=
  ("node-1",
    { Name := "node-1", Taints := []
      Allocatable := { Cpu := 20000, Memory := 4000, Gpu := 0, Ephemeral := 28000 }
      Capacity := { Cpu := 24000, Memory := 5000, Gpu := 0, Ephemeral := 32000 }
      Free := none })

/-- `nodeAEntry`'s node after the aggregator ran with nothing bound to
node-1: free equals allocatable. -/
def nodeADone : Node :=
  { Name := "node-1", Taints := []
    Allocatable := { Cpu := 20000, Memory := 4000, Gpu := 0, Ephemeral := 28000 }
    Capacity := { Cpu := 24000, Memory := 5000, Gpu := 0, Ephemeral := 32000 }
    Free := some { Cpu := 20000, Memory := 4000, Gpu := 0, Ephemeral := 28000 } }

/-- A pod bound to node-1 but already succeeded: the list query must drop
it. -/
def podTermA : Pod :=
  { name := "pod-done", nodeName := "node-1", phase := .succeeded
    containers :=
      [{ requests := [("cpu", 9000), ("memory", 9000), ("ephemeral-storage", 9000)]
         limits := [] }]
    initContainers := [], overhead := [] }

/-- A running pod whose node name is empty (unscheduled): the aggregator
must skip it. -/
def podUnsched : Pod :=
  { name := "pod-pending", nodeName := "", phase := .pending
    containers := [{ requests := [("cpu", 1000)], limits := [] }]
    initContainers := [], overhead := [] }

/-- A node with 1 CPU allocatable, used to exhibit over-commitment. -/
def nodeOverEntry : String × Node :=
  ("node-over",
    { Name := "node-over", Taints := []
      Allocatable := { Cpu := 1000, Memory := 1000, Gpu := 0, Ephemeral := 1000 }
      Capacity := { Cpu := 1000, Memory := 1000, Gpu := 0, Ephemeral := 1000 }
      Free := none })

/-- A running pod on `node-over` requesting 2 CPU — more than the node's
allocatable CPU. -/
def podOver : Pod :=
  { name := "pod-over", nodeName := "node-over", phase := .running
    containers := [{ requests := [("cpu", 2000)], limits := [] }]
    initContainers := [], overhead := [] }

/-- Relation between an input map entry and the corresponding output map
entry of the aggregator: same key, and the node unchanged except that its
free field has been written (`isSome`). -/
def onlyFreeWritten (q q' : String × Node) : Prop :=
  q'.1 = q.1 ∧ q'.2.Name = q.2.Name ∧ q'.2.Taints = q.2.Taints ∧
  q'.2.Capacity = q.2.Capacity ∧ q'.2.Allocatable = q.2.Allocatable ∧
  q'.2.Free.isSome = true

/-- A resource list with no vendor-GPU key at all. -/
def rlNoVendor : ResourceList := [("cpu", 4000), ("memory", 2000)]

/-- A resource list with a zero-valued vendor-GPU key enumerated before a
positive-valued vendor-GPU key under a different qualified name. -/
def rlVendor : ResourceList :=
  [("cpu", 4000), ("nvidia.com/gpu", 0), ("nvidia.com/mig-1g.5gb", 3000)]

/-- The node map after running the extractor and then the aggregator on
the two-node scenario, exactly as the handler chains them. -/
def scenarioAfterFree : NodeMap :=
  (getNodeFreeResourcesCluster [podB1, podB2] (getNodeInfo (.ok [nodeA, nodeB]) []).2).2

/-! ## Helper lemmas -/

/-- `subtractPod` never adds or removes a key. -/
theorem subtractPod_contains (m : NodeMap) (pod : Pod) (k : String) :
    nmContains (subtractPod m pod) k = nmContains m k := by
  unfold subtractPod
  split
  · simp only [nmModify, nmContains, List.any_map]
    congr 1
    funext p
    by_cases h : (p.1 == pod.nodeName) = true <;> simp [h, Function.comp]
  · rfl

/-- `initFree` never adds or removes a key. -/
theorem initFree_contains (m : NodeMap) (k : String) :
    nmContains (initFree m) k = nmContains m k := by
  simp only [initFree, nmContains, List.any_map]
  rfl

/-- The pod loop never adds or removes a key. -/
theorem foldl_subtractPod_contains (pods : List Pod) (m : NodeMap) (k : String) :
    nmContains (pods.foldl subtractPod m) k = nmContains m k := by
  induction pods generalizing m with
  | nil => rfl
  | cons pod rest ih => rw [List.foldl_cons, ih, subtractPod_contains]

/-- A pod whose node is not in the map is a no-op of the pod loop. -/
theorem subtractPod_of_not_contains (m : NodeMap) (pod : Pod)
    (h : nmContains m pod.nodeName = false) : subtractPod m pod = m := by
  unfold subtractPod
  simp [h]

/-! ## Claims -/

/-- C1: running the extractor then the aggregator on the two-node test
scenario yields node-2 ("node-B") free = {5 CPU, 5 mem, 1 GPU, 15500m
ephemeral} and node-1 ("node-A") free equal to its own allocatable
resources (quantities in milli-units). -/
theorem extractor_aggregator_end_to_end_scenario :
    (nmGet scenarioAfterFree "node-2").map Node.Free =
      some (some { Cpu := 5000, Memory := 5000, Gpu := 1000, Ephemeral := 15500 }) ∧
    (nmGet scenarioAfterFree "node-1").map Node.Free =
      some (some { Cpu := 20000, Memory := 4000, Gpu := 0, Ephemeral := 28000 }) ∧
    (nmGet scenarioAfterFree "node-1").map Node.Free =
      (nmGet scenarioAfterFree "node-1").map (fun nd => some nd.Allocatable) := by
  decide

/-- C5: when the pod-list fetch fails, the aggregator returns the fetch
error and the node map is returned exactly as it was — no free field is
initialized or subtracted. -/
theorem aggregator_fetch_failure_atomic (e : String) (nodes : NodeMap) :
    getNodeFreeResources (.error e) nodes = (.error e, nodes) := rfl

/-- C8: free-capacity subtraction is not clamped at zero — on a node with
1 CPU allocatable carrying a pod requesting 2 CPU, the aggregator reports
free CPU −1, strictly below zero (and below allocatable). -/
theorem aggregator_no_clamp_overcommit :
    (nmGet (getNodeFreeResources (.ok [podOver]) [nodeOverEntry]).2 "node-over").map Node.Free =
      some (some { Cpu := -1000, Memory := 1000, Gpu := 0, Ephemeral := 1000 }) ∧
    ((-1000 : Int) < 0 ∧ ¬ (nodeOverEntry.2.Allocatable.Cpu ≤ -1000)) := by
  decide

/-- C6: a workload whose bound node name is not a key of the node mapping
(an empty unscheduled name included) is skipped without error: removing it
from the pod list leaves the aggregator's entire result — every free
value and the set of map entries — unchanged. -/
theorem aggregator_skips_unknown_node (pods₁ pods₂ : List Pod) (pod : Pod)
    (nodes : NodeMap) (h : nmContains nodes pod.nodeName = false) :
    getNodeFreeResources (.ok (pods₁ ++ pod :: pods₂)) nodes =
      getNodeFreeResources (.ok (pods₁ ++ pods₂)) nodes := by
  simp only [getNodeFreeResources]
  rw [List.foldl_append, List.foldl_append, List.foldl_cons,
    subtractPod_of_not_contains]
  rw [foldl_subtractPod_contains, initFree_contains]
  exact h

/-- Witness for C6: a pending pod with an empty node name has no effect on
a one-node map that lacks the empty key. -/
theorem aggregator_skips_unknown_node_witness :
    nmContains [nodeAEntry] podUnsched.nodeName = false ∧
    getNodeFreeResources (.ok ([] ++ podUnsched :: [])) [nodeAEntry] =
      getNodeFreeResources (.ok ([] ++ [])) [nodeAEntry] :=
  ⟨by decide, aggregator_skips_unknown_node [] [] podUnsched [nodeAEntry] (by decide)⟩

/-- C9: a workload in a terminal phase (succeeded or failed) never reduces
any node's free capacity — the phase-filtered list query drops it, so the
aggregator's result is the same with or without it, wherever it sits in
the cluster pod set. -/
theorem terminal_pods_do_not_reduce_free (l₁ l₂ : List Pod) (pod : Pod)
    (nodes : NodeMap) (h : pod.phase = .succeeded ∨ pod.phase = .failed) :
    getNodeFreeResourcesCluster (l₁ ++ pod :: l₂) nodes =
      getNodeFreeResourcesCluster (l₁ ++ l₂) nodes := by
  have hc : (!(pod.phase == PodPhase.succeeded) && !(pod.phase == PodPhase.failed)) = false := by
    rcases h with h | h <;> simp [h]
  simp [getNodeFreeResourcesCluster, listNonTerminatedPods, List.filter_append,
    List.filter_cons, hc]

/-- Witness for C9: a succeeded pod on node-1 leaves the two-node
aggregation unchanged. -/
theorem terminal_pods_do_not_reduce_free_witness :
    (podTermA.phase = .succeeded ∨ podTermA.phase = .failed) ∧
    getNodeFreeResourcesCluster ([podB1] ++ podTermA :: []) [nodeAEntry, nodeBEntry] =
      getNodeFreeResourcesCluster ([podB1] ++ []) [nodeAEntry, nodeBEntry] :=
  ⟨Or.inl rfl,
    terminal_pods_do_not_reduce_free [podB1] [] podTermA [nodeAEntry, nodeBEntry] (Or.inl rfl)⟩

/-- The GPU scan leaves its accumulator alone when no key of the list has
the vendor prefix. -/
theorem resolveGpu_scan_keep (l : List (ResourceName × Int)) (a : Int)
    (h : ∀ q ∈ l, hasPre q.1 "nvidia.com" = false) :
    l.foldl (fun acc p => if hasPre p.1 "nvidia.com" && p.2 != 0 then p.2 else acc) a = a := by
  induction l generalizing a with
  | nil => rfl
  | cons q t ih =>
    rw [List.foldl_cons]
    have hq := h q (List.mem_cons_self q t)
    rw [hq]
    exact ih a (fun r hr => h r (List.mem_cons_of_mem q hr))

/-- Once the GPU scan holds the unique positive vendor value, no later
entry changes it: a vendor entry is either that same value or zero, and a
zero value never passes the overriding test. -/
theorem resolveGpu_scan_stay (k₀ : ResourceName) (p : Int) (l : List (ResourceName × Int))
    (h : ∀ q ∈ l, hasPre q.1 "nvidia.com" = true → q = (k₀, p) ∨ q.2 = 0) :
    l.foldl (fun acc q => if hasPre q.1 "nvidia.com" && q.2 != 0 then q.2 else acc) p = p := by
  induction l with
  | nil => rfl
  | cons q t ih =>
    rw [List.foldl_cons]
    have ht : ∀ r ∈ t, hasPre r.1 "nvidia.com" = true → r = (k₀, p) ∨ r.2 = 0 :=
      fun r hr => h r (List.mem_cons_of_mem q hr)
    by_cases hc : (hasPre q.1 "nvidia.com" && q.2 != 0) = true
    · rw [Bool.and_eq_true] at hc
      rcases h q (List.mem_cons_self q t) hc.1 with he | he
      · have hv : q.2 = p := by rw [he]
        rw [if_pos (by rw [Bool.and_eq_true]; exact hc), hv]
        exact ih ht
      · exact absurd he (by simpa using hc.2)
    · rw [if_neg hc]
      exact ih ht

/-- The exact `"nvidia.com/gpu"` lookup yields the zero quantity when the
list has no vendor-prefixed key at all. -/
theorem rlGet_gpu_of_no_vendor (rl : ResourceList)
    (h : ∀ q ∈ rl, hasPre q.1 "nvidia.com" = false) :
    rlGet rl "nvidia.com/gpu" = 0 := by
  unfold rlGet
  cases hf : rl.find? (fun p => p.1 == "nvidia.com/gpu") with
  | none => rfl
  | some q =>
    have hq : q ∈ rl := List.mem_of_find?_eq_some hf
    have hk : q.1 = "nvidia.com/gpu" := by simpa using List.find?_some hf
    have hfalse := h q hq
    rw [hk] at hfalse
    exact absurd hfalse (by decide)

/-- C2: GPU resolution (applied identically to node capacity lists and to
reconciled pod request lists): when no key carries the `nvidia.com` prefix
the resolved quantity is zero, and for any list whose vendor-prefixed
entries are all zero except a single strictly-positive one, the resolved
quantity is that positive value — whatever the enumeration order, since a
zero-valued match never overrides a previously found positive value. -/
theorem gpu_resolution_policy (rl : ResourceList) :
    ((∀ q ∈ rl, hasPre q.1 "nvidia.com" = false) → resolveGpu rl = 0) ∧
    (∀ k₀ p, 0 < p → (k₀, p) ∈ rl → hasPre k₀ "nvidia.com" = true →
      (∀ q ∈ rl, hasPre q.1 "nvidia.com" = true → q = (k₀, p) ∨ q.2 = 0) →
      resolveGpu rl = p) := by
  constructor
  · intro h
    unfold resolveGpu
    rw [rlGet_gpu_of_no_vendor rl h]
    exact resolveGpu_scan_keep rl 0 h
  · intro k₀ p hp hmem hpre hall
    obtain ⟨s, t, rfl⟩ := List.append_of_mem hmem
    unfold resolveGpu
    rw [List.foldl_append, List.foldl_cons]
    have hcond : (hasPre (k₀, p).1 "nvidia.com" && ((k₀, p).2 != 0)) = true := by
      rw [Bool.and_eq_true]
      refine ⟨hpre, ?_⟩
      simp only [bne_iff_ne, ne_eq]
      omega
    rw [if_pos hcond]
    exact resolveGpu_scan_stay k₀ p t
      (fun q hq => hall q (List.mem_append_right s (List.mem_cons_of_mem (k₀, p) hq)))

/-- Witness for C2: a list without vendor keys resolves to zero, and a
list with a zero-valued `nvidia.com/gpu` before a positive
`nvidia.com/mig-1g.5gb` resolves to the positive value. -/
theorem gpu_resolution_policy_witness :
    (∀ q ∈ rlNoVendor, hasPre q.1 "nvidia.com" = false) ∧ resolveGpu rlNoVendor = 0 ∧
    ((0 : Int) < 3000 ∧ ("nvidia.com/mig-1g.5gb", (3000 : Int)) ∈ rlVendor ∧
      hasPre "nvidia.com/mig-1g.5gb" "nvidia.com" = true ∧
      (∀ q ∈ rlVendor, hasPre q.1 "nvidia.com" = true →
        q = ("nvidia.com/mig-1g.5gb", 3000) ∨ q.2 = 0)) ∧
    resolveGpu rlVendor = 3000 :=
  ⟨by decide, (gpu_resolution_policy rlNoVendor).1 (by decide),
    ⟨by decide, by decide, by decide, by decide⟩,
    (gpu_resolution_policy rlVendor).2 "nvidia.com/mig-1g.5gb" 3000
      (by decide) (by decide) (by decide) (by decide)⟩

/-- An entry of a map after a Go map write is the written binding or an
entry of the original map. -/
theorem mem_nmInsert (m : NodeMap) (k : String) (v : Node) (q : String × Node)
    (hq : q ∈ nmInsert m k v) : q = (k, v) ∨ q ∈ m := by
  unfold nmInsert at hq
  split at hq
  · rcases List.mem_map.mp hq with ⟨q₀, hq₀, rfl⟩
    by_cases hk : (q₀.1 == k) = true
    · left; simp [hk]
    · right; simpa [hk] using hq₀
  · rcases List.mem_append.mp hq with h | h
    · right; exact h
    · left; simpa using h

/-- Invariant of the extractor's node loop: every entry of the produced
map keeps allocatable GPU equal to capacity GPU, provided every entry of
the starting map does. -/
theorem foldl_extractNode_gpu (items : List KNode) (m : NodeMap)
    (hm : ∀ q ∈ m, q.2.Allocatable.Gpu = q.2.Capacity.Gpu) :
    ∀ q ∈ items.foldl extractNode m, q.2.Allocatable.Gpu = q.2.Capacity.Gpu := by
  induction items generalizing m with
  | nil => exact hm
  | cons kn rest ih =>
    rw [List.foldl_cons]
    apply ih
    intro q hq
    rcases mem_nmInsert m kn.name (extractedNode kn) q hq with rfl | h
    · rfl
    · exact hm q h

/-- C3: every node produced by the extractor stores the same GPU quantity
in its allocatable resources as in its capacity resources — allocatable
GPU is set from the capacity-list resolution, not resolved from the
node's allocatable resource list. -/
theorem extractor_gpu_allocatable_equals_capacity (items : List KNode) :
    ∀ q ∈ (getNodeInfo (.ok items) []).2, q.2.Allocatable.Gpu = q.2.Capacity.Gpu := by
  intro q hq
  exact foldl_extractNode_gpu items [] (fun q hq => absurd hq (List.not_mem_nil q)) q hq

/-- Witness for C3: the extracted node-2 stores 2 GPUs in both records. -/
theorem extractor_gpu_allocatable_equals_capacity_witness :
    nodeBEntry ∈ (getNodeInfo (.ok [nodeB]) []).2 ∧
    nodeBEntry.2.Allocatable.Gpu = nodeBEntry.2.Capacity.Gpu :=
  ⟨by decide, extractor_gpu_allocatable_equals_capacity [nodeB] nodeBEntry (by decide)⟩

/-- The free-initialization loop relates input to output entry by entry:
keys and all fields except free are untouched, and free is written. -/
theorem initFree_forall₂ (m : NodeMap) :
    List.Forall₂ onlyFreeWritten m (initFree m) := by
  induction m with
  | nil => exact List.Forall₂.nil
  | cons q t ih => exact List.Forall₂.cons ⟨rfl, rfl, rfl, rfl, rfl, rfl⟩ ih

/-- A map update whose node transformer touches only the free field (and
writes it) preserves the entry-by-entry relation to the original map. -/
theorem nmModify_forall₂ (m₀ m : NodeMap) (k : String) (f : Node → Node)
    (hf : ∀ nd : Node, (f nd).Name = nd.Name ∧ (f nd).Taints = nd.Taints ∧
      (f nd).Capacity = nd.Capacity ∧ (f nd).Allocatable = nd.Allocatable ∧
      (f nd).Free.isSome = true)
    (h : List.Forall₂ onlyFreeWritten m₀ m) :
    List.Forall₂ onlyFreeWritten m₀ (nmModify m k f) := by
  unfold nmModify
  induction h with
  | nil => exact List.Forall₂.nil
  | @cons a b l₁ l₂ hq htail ih =>
    rw [List.map_cons]
    refine List.Forall₂.cons ?_ ih
    by_cases hk : (b.1 == k) = true
    · obtain ⟨h1, h2, h3, h4, h5, _⟩ := hq
      obtain ⟨f1, f2, f3, f4, f5⟩ := hf b.2
      rw [if_pos hk]
      exact ⟨h1, f1.trans h2, f2.trans h3, f3.trans h4, f4.trans h5, f5⟩
    · rw [if_neg hk]
      exact hq

/-- One step of the pod loop preserves the entry-by-entry relation: it
either skips the pod or rewrites only the targeted node's free field. -/
theorem subtractPod_forall₂ (m₀ m : NodeMap) (pod : Pod)
    (h : List.Forall₂ onlyFreeWritten m₀ m) :
    List.Forall₂ onlyFreeWritten m₀ (subtractPod m pod) := by
  unfold subtractPod
  split
  · exact nmModify_forall₂ m₀ m pod.nodeName _ (fun nd => ⟨rfl, rfl, rfl, rfl, rfl⟩) h
  · exact h

/-- The whole pod loop preserves the entry-by-entry relation. -/
theorem foldl_subtractPod_forall₂ (pods : List Pod) (m₀ m : NodeMap)
    (h : List.Forall₂ onlyFreeWritten m₀ m) :
    List.Forall₂ onlyFreeWritten m₀ (pods.foldl subtractPod m) := by
  induction pods generalizing m with
  | nil => exact h
  | cons pod rest ih =>
    rw [List.foldl_cons]
    exact ih _ (subtractPod_forall₂ m₀ m pod h)

/-- C7: on a successful fetch the aggregator succeeds, and its output map
relates to the input map entry by entry: no node is added or removed, each
node keeps its key, name, taints, capacity and allocatable resources, and
each node's free field is populated — only free is modified. -/
theorem aggregator_frame_and_population (pods : List Pod) (nodes : NodeMap) :
    (getNodeFreeResources (.ok pods) nodes).1 = .ok () ∧
    List.Forall₂ onlyFreeWritten nodes (getNodeFreeResources (.ok pods) nodes).2 :=
  ⟨rfl, foldl_subtractPod_forall₂ pods nodes (initFree nodes) (initFree_forall₂ nodes)⟩

/-- Two maps that agree on everything except free fields are sent to the
same map by the free-initialization loop, which overwrites free. -/
theorem initFree_eq_of_forall₂ (m m' : NodeMap)
    (h : List.Forall₂ onlyFreeWritten m m') : initFree m' = initFree m := by
  induction h with
  | nil => rfl
  | @cons a b l₁ l₂ hq htail ih =>
    obtain ⟨ka, na⟩ := a
    obtain ⟨kb, nb⟩ := b
    obtain ⟨h1, h2, h3, h4, h5, _⟩ := hq
    simp only [initFree, List.map_cons] at ih ⊢
    rw [ih]
    simp only [List.cons.injEq, Prod.mk.injEq]
    refine ⟨⟨h1, ?_⟩, trivial⟩
    obtain ⟨nbn, nbt, nba, nbc, nbf⟩ := nb
    obtain ⟨nan, nat', naa, nac, naf⟩ := na
    simp only at h2 h3 h4 h5
    rw [h2, h3, h4, h5]

/-- C10: the aggregator is idempotent — running it a second time on its
own output, against the same pod snapshot, reproduces exactly the same
result, because every run reinitializes free from allocatable. -/
theorem aggregator_idempotent (pods : List Pod) (nodes : NodeMap) :
    getNodeFreeResources (.ok pods) (getNodeFreeResources (.ok pods) nodes).2 =
      getNodeFreeResources (.ok pods) nodes := by
  have h := foldl_subtractPod_forall₂ pods nodes (initFree nodes) (initFree_forall₂ nodes)
  simp only [getNodeFreeResources]
  rw [initFree_eq_of_forall₂ nodes _ h]
/-- An entry whose key differs from a pod's bound node name is untouched
by that pod's loop step. -/
theorem mem_subtractPod_of_ne (m : NodeMap) (pod : Pod) (q : String × Node)
    (hq : q ∈ subtractPod m pod) (hne : pod.nodeName ≠ q.1) : q ∈ m := by
  unfold subtractPod at hq
  split at hq
  · unfold nmModify at hq
    rcases List.mem_map.mp hq with ⟨q₀, hq₀, rfl⟩
    by_cases hk : (q₀.1 == pod.nodeName) = true
    · exfalso
      apply hne
      have hkey : q₀.1 = pod.nodeName := by simpa using hk
      rw [if_pos hk]
      exact hkey.symm
    · simpa [hk] using hq₀
  · exact hq

/-- An entry whose key no pod of the list targets survives the whole pod
loop unchanged. -/
theorem mem_foldl_subtractPod_of_ne (pods : List Pod) (m : NodeMap) (n : String)
    (hpods : ∀ pod ∈ pods, pod.nodeName ≠ n) :
    ∀ q ∈ pods.foldl subtractPod m, q.1 = n → q ∈ m := by
  induction pods generalizing m with
  | nil => exact fun q hq _ => hq
  | cons pod rest ih =>
    intro q hq hqn
    rw [List.foldl_cons] at hq
    have hq' := ih (subtractPod m pod)
      (fun r hr => hpods r (List.mem_cons_of_mem pod hr)) q hq hqn
    refine mem_subtractPod_of_ne m pod q hq' ?_
    rw [hqn]
    exact hpods pod (List.mem_cons_self pod rest)

/-- C4: a node to which zero non-terminated workloads are bound comes out
of the aggregator with its free resources equal to a value copy of its own
allocatable resources — equality of the `Resources` records, hence
equality in every one of the four dimensions. -/
theorem free_equals_allocatable_when_unburdened (clusterPods : List Pod)
    (nodes : NodeMap) (n : String) (nd : Node)
    (hpods : ∀ pod ∈ clusterPods, pod.nodeName = n →
      pod.phase = PodPhase.succeeded ∨ pod.phase = PodPhase.failed)
    (hmem : (n, nd) ∈ (getNodeFreeResourcesCluster clusterPods nodes).2) :
    nd.Free = some nd.Allocatable := by
  have hfiltered : ∀ pod ∈ listNonTerminatedPods clusterPods, pod.nodeName ≠ n := by
    intro pod hpod heq
    unfold listNonTerminatedPods at hpod
    have hm := List.mem_filter.mp hpod
    rcases hpods pod hm.1 heq with h | h <;> simp [h] at hm
  have hinit : (n, nd) ∈ initFree nodes := by
    refine mem_foldl_subtractPod_of_ne (listNonTerminatedPods clusterPods)
      (initFree nodes) n hfiltered (n, nd) ?_ rfl
    exact hmem
  unfold initFree at hinit
  rcases List.mem_map.mp hinit with ⟨q₀, hq₀, heq⟩
  have hs := congrArg Prod.snd heq
  simp only at hs
  rw [← hs]

/-- Witness for C4: node-1, whose only cluster pod is a succeeded one,
comes out with free equal to a copy of its allocatable resources. -/
theorem free_equals_allocatable_when_unburdened_witness :
    (∀ pod ∈ [podTermA], pod.nodeName = "node-1" →
      pod.phase = PodPhase.succeeded ∨ pod.phase = PodPhase.failed) ∧
    ("node-1", nodeADone) ∈ (getNodeFreeResourcesCluster [podTermA] [nodeAEntry]).2 ∧
    nodeADone.Free = some nodeADone.Allocatable :=
  ⟨by decide, by decide,
    free_equals_allocatable_when_unburdened [podTermA] [nodeAEntry] "node-1" nodeADone
      (by decide) (by decide)⟩
